import Mathlib

/-!
Verification development for the `aidbox` Python client library
(`aidbox/lib.py`): a shallow embedding of its schema-caching client
(`Aidbox`), lazy immutable query builder (`AidboxSearchSet`),
schema-validated record type (`AidboxResource`) and reference type
(`AidboxReference`), together with theorems settling the specified
properties.

Modelling conventions:
* Python values (JSON-like data plus the two library object types that can
  occur inside field data) are the inductive `Value`; Python dicts are
  association lists preserving insertion order.
* Python object mutation of search-set parameter dicts is modelled with an
  explicit store of dict cells (`Store`), so that aliasing and
  `copy.deepcopy` are represented faithfully.
* The HTTP transport is a black-box collaborator (spec §6): a `Server` is a
  function from requests to status/body responses; `_do_request` maps
  status codes to error kinds exactly as the source does.  The
  snake/camel-case conversion performed by the transport is external to
  the core and is not modelled (requests record the data handed to the
  transport).
* Python-level exceptions that are not part of the library's taxonomy
  (KeyError / TypeError / AttributeError on malformed data) are collapsed
  into the single error `pyError`.
-/

set_option autoImplicit false

namespace Aidbox

/-- JSON-like runtime values, plus the two library object types that can
appear inside resource field data: an embedded `AidboxResource` (carried
with its four instance attributes) and an `AidboxReference` (carried with
its data fields; the client pointer of either object is not part of the
value). -/
inductive Value where
  | null
  | bool (b : Bool)
  | int (n : Int)
  | str (s : String)
  | list (xs : List Value)
  | dict (kvs : List (String × Value))
  | res (resource_type : String) (rdata : List (String × Value))
      (rmeta : Value) (rextra : List (String × Value))
  | ref (resource_type : String) (id : Value) (display : Value)
      (resource : Value)

mutual

/-- Decidable equality for `Value` (the `deriving` handler does not
support this nested inductive, so the decision procedure is spelled
out). -/
def decEqV : (a b : Value) → Decidable (a = b)
  | .null, .null => .isTrue rfl
  | .null, .bool _ => .isFalse (fun h => Value.noConfusion h)
  | .null, .int _ => .isFalse (fun h => Value.noConfusion h)
  | .null, .str _ => .isFalse (fun h => Value.noConfusion h)
  | .null, .list _ => .isFalse (fun h => Value.noConfusion h)
  | .null, .dict _ => .isFalse (fun h => Value.noConfusion h)
  | .null, .res _ _ _ _ => .isFalse (fun h => Value.noConfusion h)
  | .null, .ref _ _ _ _ => .isFalse (fun h => Value.noConfusion h)
  | .bool _, .null => .isFalse (fun h => Value.noConfusion h)
  | .bool a, .bool b =>
    if h : a = b then .isTrue (by rw [h])
    else .isFalse (fun hh => h (by cases hh; rfl))
  | .bool _, .int _ => .isFalse (fun h => Value.noConfusion h)
  | .bool _, .str _ => .isFalse (fun h => Value.noConfusion h)
  | .bool _, .list _ => .isFalse (fun h => Value.noConfusion h)
  | .bool _, .dict _ => .isFalse (fun h => Value.noConfusion h)
  | .bool _, .res _ _ _ _ => .isFalse (fun h => Value.noConfusion h)
  | .bool _, .ref _ _ _ _ => .isFalse (fun h => Value.noConfusion h)
  | .int _, .null => .isFalse (fun h => Value.noConfusion h)
  | .int _, .bool _ => .isFalse (fun h => Value.noConfusion h)
  | .int a, .int b =>
    if h : a = b then .isTrue (by rw [h])
    else .isFalse (fun hh => h (by cases hh; rfl))
  | .int _, .str _ => .isFalse (fun h => Value.noConfusion h)
  | .int _, .list _ => .isFalse (fun h => Value.noConfusion h)
  | .int _, .dict _ => .isFalse (fun h => Value.noConfusion h)
  | .int _, .res _ _ _ _ => .isFalse (fun h => Value.noConfusion h)
  | .int _, .ref _ _ _ _ => .isFalse (fun h => Value.noConfusion h)
  | .str _, .null => .isFalse (fun h => Value.noConfusion h)
  | .str _, .bool _ => .isFalse (fun h => Value.noConfusion h)
  | .str _, .int _ => .isFalse (fun h => Value.noConfusion h)
  | .str a, .str b =>
    if h : a = b then .isTrue (by rw [h])
    else .isFalse (fun hh => h (by cases hh; rfl))
  | .str _, .list _ => .isFalse (fun h => Value.noConfusion h)
  | .str _, .dict _ => .isFalse (fun h => Value.noConfusion h)
  | .str _, .res _ _ _ _ => .isFalse (fun h => Value.noConfusion h)
  | .str _, .ref _ _ _ _ => .isFalse (fun h => Value.noConfusion h)
  | .list _, .null => .isFalse (fun h => Value.noConfusion h)
  | .list _, .bool _ => .isFalse (fun h => Value.noConfusion h)
  | .list _, .int _ => .isFalse (fun h => Value.noConfusion h)
  | .list _, .str _ => .isFalse (fun h => Value.noConfusion h)
  | .list xs, .list ys =>
    match decEqVL xs ys with
    | .isTrue h => .isTrue (by rw [h])
    | .isFalse h => .isFalse (fun hh => h (by cases hh; rfl))
  | .list _, .dict _ => .isFalse (fun h => Value.noConfusion h)
  | .list _, .res _ _ _ _ => .isFalse (fun h => Value.noConfusion h)
  | .list _, .ref _ _ _ _ => .isFalse (fun h => Value.noConfusion h)
  | .dict _, .null => .isFalse (fun h => Value.noConfusion h)
  | .dict _, .bool _ => .isFalse (fun h => Value.noConfusion h)
  | .dict _, .int _ => .isFalse (fun h => Value.noConfusion h)
  | .dict _, .str _ => .isFalse (fun h => Value.noConfusion h)
  | .dict _, .list _ => .isFalse (fun h => Value.noConfusion h)
  | .dict a, .dict b =>
    match decEqVP a b with
    | .isTrue h => .isTrue (by rw [h])
    | .isFalse h => .isFalse (fun hh => h (by cases hh; rfl))
  | .dict _, .res _ _ _ _ => .isFalse (fun h => Value.noConfusion h)
  | .dict _, .ref _ _ _ _ => .isFalse (fun h => Value.noConfusion h)
  | .res _ _ _ _, .null => .isFalse (fun h => Value.noConfusion h)
  | .res _ _ _ _, .bool _ => .isFalse (fun h => Value.noConfusion h)
  | .res _ _ _ _, .int _ => .isFalse (fun h => Value.noConfusion h)
  | .res _ _ _ _, .str _ => .isFalse (fun h => Value.noConfusion h)
  | .res _ _ _ _, .list _ => .isFalse (fun h => Value.noConfusion h)
  | .res _ _ _ _, .dict _ => .isFalse (fun h => Value.noConfusion h)
  | .res t1 d1 m1 e1, .res t2 d2 m2 e2 =>
    if ht : t1 = t2 then
      match decEqVP d1 d2 with
      | .isTrue hd =>
        match decEqV m1 m2 with
        | .isTrue hm =>
          match decEqVP e1 e2 with
          | .isTrue he => .isTrue (by rw [ht, hd, hm, he])
          | .isFalse he => .isFalse (fun hh => he (by cases hh; rfl))
        | .isFalse hm => .isFalse (fun hh => hm (by cases hh; rfl))
      | .isFalse hd => .isFalse (fun hh => hd (by cases hh; rfl))
    else .isFalse (fun hh => ht (by cases hh; rfl))
  | .res _ _ _ _, .ref _ _ _ _ => .isFalse (fun h => Value.noConfusion h)
  | .ref _ _ _ _, .null => .isFalse (fun h => Value.noConfusion h)
  | .ref _ _ _ _, .bool _ => .isFalse (fun h => Value.noConfusion h)
  | .ref _ _ _ _, .int _ => .isFalse (fun h => Value.noConfusion h)
  | .ref _ _ _ _, .str _ => .isFalse (fun h => Value.noConfusion h)
  | .ref _ _ _ _, .list _ => .isFalse (fun h => Value.noConfusion h)
  | .ref _ _ _ _, .dict _ => .isFalse (fun h => Value.noConfusion h)
  | .ref _ _ _ _, .res _ _ _ _ => .isFalse (fun h => Value.noConfusion h)
  | .ref t1 i1 d1 r1, .ref t2 i2 d2 r2 =>
    if ht : t1 = t2 then
      match decEqV i1 i2 with
      | .isTrue hi =>
        match decEqV d1 d2 with
        | .isTrue hd =>
          match decEqV r1 r2 with
          | .isTrue hr => .isTrue (by rw [ht, hi, hd, hr])
          | .isFalse hr => .isFalse (fun hh => hr (by cases hh; rfl))
        | .isFalse hd => .isFalse (fun hh => hd (by cases hh; rfl))
      | .isFalse hi => .isFalse (fun hh => hi (by cases hh; rfl))
    else .isFalse (fun hh => ht (by cases hh; rfl))

/-- Decidable equality for lists of values. -/
def decEqVL : (a b : List Value) → Decidable (a = b)
  | [], [] => .isTrue rfl
  | [], _ :: _ => .isFalse (fun h => List.noConfusion h)
  | _ :: _, [] => .isFalse (fun h => List.noConfusion h)
  | x :: xs, y :: ys =>
    match decEqV x y with
    | .isTrue h1 =>
      match decEqVL xs ys with
      | .isTrue h2 => .isTrue (by rw [h1, h2])
      | .isFalse h2 => .isFalse (fun hh => h2 (by cases hh; rfl))
    | .isFalse h1 => .isFalse (fun hh => h1 (by cases hh; rfl))

/-- Decidable equality for association lists of values. -/
def decEqVP : (a b : List (String × Value)) → Decidable (a = b)
  | [], [] => .isTrue rfl
  | [], _ :: _ => .isFalse (fun h => List.noConfusion h)
  | _ :: _, [] => .isFalse (fun h => List.noConfusion h)
  | (k1, v1) :: xs, (k2, v2) :: ys =>
    if hk : k1 = k2 then
      match decEqV v1 v2 with
      | .isTrue h1 =>
        match decEqVP xs ys with
        | .isTrue h2 => .isTrue (by rw [hk, h1, h2])
        | .isFalse h2 => .isFalse (fun hh => h2 (by cases hh; rfl))
      | .isFalse h1 => .isFalse (fun hh => h1 (by cases hh; rfl))
    else .isFalse (fun hh => hk (by cases hh; rfl))

end

instance : DecidableEq Value := decEqV

/-- Python truthiness (`bool(v)`) for the values of `Value`.  Library
objects (`res`, `ref`) define neither `__bool__` nor `__len__`, hence are
always truthy. -/
def truthy : Value → Bool
  | .null => false
  | .bool b => b
  | .int n => n != 0
  | .str s => s != ""
  | .list xs => !xs.isEmpty
  | .dict kvs => !kvs.isEmpty
  | .res _ _ _ _ => true
  | .ref _ _ _ _ => true

/-- `d.get(k)` on an insertion-ordered dict represented as an association
list (first binding wins; dicts built by the library have unique keys). -/
def alGet {α : Type} : List (String × α) → String → Option α
  | [], _ => none
  | (k1, v1) :: t, k => if k1 = k then some v1 else alGet t k

/-- `d[k] = v` on an insertion-ordered dict: replace the value of the
binding in place if the key is present, otherwise append a new
binding. -/
def alSet {α : Type} : List (String × α) → String → α → List (String × α)
  | [], k, v => [(k, v)]
  | (k1, v1) :: t, k, v =>
    if k1 = k then (k, v) :: t else (k1, v1) :: alSet t k v

/-- `d.pop(k, default)`'s removal effect: drop every binding of `k`. -/
def alRemove {α : Type} (d : List (String × α)) (k : String) :
    List (String × α) :=
  d.filter (fun kv => ¬ kv.1 = k)

/-- `d.update(kwargs)`: fold `alSet` over the supplied pairs. -/
def alUpdate {α : Type} (d kwargs : List (String × α)) :
    List (String × α) :=
  kwargs.foldl (fun acc kv => alSet acc kv.1 kv.2) d

/-- Python `str(v)` as used by `'{0}/{1}'.format` in `get_path`.  Only the
scalar cases are ever exercised by the library (ids are strings); the
container/object cases use a placeholder for Python's `repr`. -/
def formatVal : Value → String
  | .null => "None"
  | .bool b => if b then "True" else "False"
  | .int n => toString n
  | .str s => s
  | _ => "<object>"

/-- The library's error taxonomy (`aidbox/exceptions.py` is not under
`src/`; the spec's §7 names the four kinds).  `pyError` additionally
models plain Python exceptions (KeyError / TypeError / AttributeError)
raised on malformed data, which are outside the taxonomy. -/
inductive AidboxError where
  | resourceNotFound
  | authorizationError
  | operationOutcome (text : String)
  | fieldDoesNotExist (msg : String)
  | pyError
deriving DecidableEq, Repr

/-- The message of `AidboxResourceFieldDoesNotExist` raised by
`__setattr__` / `__getattr__` (lines 218–220 and 226–228). -/
def invalidMsg (key resource_type : String) : String :=
  "Invalid attribute `" ++ key ++ "` for resource `" ++ resource_type ++ "`"

/-- One HTTP request as handed to the transport by `_do_request`:
method, path (relative to the host), query params, JSON body. -/
structure Request where
  method : String
  path : String
  params : List (String × Value)
  body : Option Value
deriving DecidableEq

/-- A transport response: status code, the parsed name-converted body
(`none` models an empty response text), and the raw text used for
`AidboxOperationOutcome` diagnostics. -/
structure HttpResponse where
  status : Nat
  body : Option Value := none
  text : String := ""
deriving DecidableEq

/-- The remote server as a black box: a function from requests to
responses (spec §6 transport contract). -/
def Server : Type := Request → HttpResponse

/-- `Aidbox._do_request` (lines 51–69): issue the request, then map the
status code: 2xx → parsed body, 404 → `AidboxResourceNotFound`,
403 → `AidboxAuthorizationError`, otherwise `AidboxOperationOutcome`
carrying the raw text.  Also returns the singleton request log. -/
def do_request (srv : Server) (method path : String)
    (data : Option Value) (params : List (String × Value)) :
    Except AidboxError (Option Value) × List Request :=
  let req : Request := ⟨method, path, params, data⟩
  let r := srv req
  (if 200 ≤ r.status ∧ r.status < 300 then .ok r.body
   else if r.status = 404 then .error .resourceNotFound
   else if r.status = 403 then .error .authorizationError
   else .error (.operationOutcome r.text), [req])

/-- The client state: host plus the per-client schema cache
`self.schema`, a dict from resource-type name to the set of valid field
names. -/
structure Client where
  host : String
  schema : List (String × Finset String)
deriving DecidableEq

/-- `[res['resource'] for res in bundle['entry']]` (lines 81 and 114):
each entry must be a dict carrying a `resource` payload; `none` models
the Python error otherwise. -/
def entryResources : List Value → Option (List Value)
  | [] => some []
  | Value.dict ekvs :: t =>
    match alGet ekvs "resource" with
    | none => none
    | some r =>
      match entryResources t with
      | none => none
      | some rs => some (r :: rs)
  | _ :: _ => none

/-- `inflection.underscore(attr['path'][0])` for one attribute
meta-resource: the first element of the `path` list (a `path` that is a
string is indexed per-character by `[0]`, as in Python), converted with
the external naming collaborator `u`; `none` models the Python error on
a missing/empty/unsubscriptable `path` or a non-dict attribute. -/
def attrFirstPath (u : String → String) (attr : Value) : Option String :=
  match attr with
  | .dict akvs =>
    match alGet akvs "path" with
    | some (.list (.str p :: _)) => some (u p)
    | some (.str s) => (s.data.head?).map (fun c => u (String.mk [c]))
    | _ => none
  | _ => none

def attrNames (u : String → String) : List Value → Option (List String)
  | [] => some []
  | attr :: t =>
    match attrFirstPath u attr with
    | none => none
    | some n =>
      match attrNames u t with
      | none => none
      | some ns => some (n :: ns)

/-- The fetch branch of `Aidbox._fetch_schema` (lines 77–84): query the
`Attribute` meta-resources with `entity = rt`, convert each result's
`path[0]` with the external `inflection.underscore` collaborator `u`,
union with `{"id"}`, store under `rt` and return.  Malformed bundles
raise Python errors, modelled as `pyError`. -/
def fetchSchemaMiss (u : String → String) (srv : Server) (a : Client)
    (rt : String) :
    Except AidboxError (Finset String × Client × List Request) :=
  match do_request srv "get" "Attribute" none [("entity", .str rt)] with
  | (.error e, _) => .error e
  | (.ok body, reqs) =>
    match body with
    | some (.dict kvs) =>
      match alGet kvs "entry" with
      | some (.list entries) =>
        match entryResources entries with
        | none => .error .pyError
        | some attrs =>
          match attrNames u attrs with
          | none => .error .pyError
          | some names =>
            let s : Finset String := names.toFinset ∪ {"id"}
            .ok (s, { a with schema := alSet a.schema rt s }, reqs)
      | _ => .error .pyError
    | _ => .error .pyError

/-- `Aidbox._fetch_schema` (lines 74–86).  `schema.get(rt, None)` is
tested for truthiness (`if not schema:`), so both a missing and an empty
cache entry take the fetch branch; a non-empty cached set is returned
unchanged with no request. -/
def fetch_schema (u : String → String) (srv : Server) (a : Client)
    (rt : String) :
    Except AidboxError (Finset String × Client × List Request) :=
  match alGet a.schema rt with
  | some s => if s = ∅ then fetchSchemaMiss u srv a rt else .ok (s, a, [])
  | none => fetchSchemaMiss u srv a rt

/-- A store of parameter-dict cells.  `AidboxSearchSet.params` is a
mutable Python dict; the store makes dict identity and `copy.deepcopy`
explicit so that non-mutation of a receiver's dict is a provable fact
rather than an artefact of a pure embedding. -/
structure Store where
  cells : List (List (String × Value))
deriving DecidableEq

/-- Read the dict held by cell `i`. -/
def readRef (σ : Store) (i : Nat) : List (String × Value) :=
  σ.cells.getD i []

/-- `AidboxSearchSet` (lines 95–103): the owning client is threaded
separately; `paramsRef` is the identity of the `self.params` dict in the
store. -/
structure AidboxSearchSet where
  resource_type : String
  paramsRef : Nat
deriving DecidableEq

/-- Everything an operation on a search set can observe of it: its
target type and the current contents of its parameter dict. -/
def observeSS (σ : Store) (s : AidboxSearchSet) :
    String × List (String × Value) :=
  (s.resource_type, readRef σ s.paramsRef)

/-- `AidboxSearchSet.clone` (lines 145–148): deep-copy `self.params`
into a fresh cell, update the copy with `kwargs`, and return a new
search set over the fresh cell. -/
def cloneSS (σ : Store) (s : AidboxSearchSet)
    (kwargs : List (String × Value)) : Store × AidboxSearchSet :=
  let p := readRef σ s.paramsRef
  let newRef := σ.cells.length
  let σ' : Store := ⟨σ.cells ++ [alUpdate p kwargs]⟩
  (σ', ⟨s.resource_type, newRef⟩)

/-- `AidboxSearchSet.search` (lines 150–151): alias for `clone`. -/
def searchSS (σ : Store) (s : AidboxSearchSet)
    (kwargs : List (String × Value)) : Store × AidboxSearchSet :=
  cloneSS σ s kwargs

/-- `AidboxSearchSet.limit` (lines 153–154): `clone(_count=limit)`. -/
def limitSS (σ : Store) (s : AidboxSearchSet) (lim : Value) :
    Store × AidboxSearchSet :=
  cloneSS σ s [("_count", lim)]

/-- `AidboxSearchSet.page` (lines 156–157): `clone(_page=page)`. -/
def pageSS (σ : Store) (s : AidboxSearchSet) (page : Value) :
    Store × AidboxSearchSet :=
  cloneSS σ s [("_page", page)]

/-- The strings of a list of values: defined when every element is a
string. -/
def strElems : List Value → Option (List String)
  | [] => some []
  | Value.str s :: t =>
    match strElems t with
    | none => none
    | some ss => some (s :: ss)
  | _ :: _ => none

/-- `','.join(xs)`: defined when every element is a string, otherwise a
Python `TypeError`. -/
def pyJoin (xs : List Value) : Option String :=
  (strElems xs).map (String.intercalate ",")

/-- `AidboxSearchSet.sort` (lines 159–161): a list argument is
comma-joined (a non-string element raises), any other value is passed
through; then `clone(_sort=sort_keys)`. -/
def sortSS (σ : Store) (s : AidboxSearchSet) (keys : Value) :
    Except AidboxError (Store × AidboxSearchSet) :=
  match keys with
  | .list xs =>
    match pyJoin xs with
    | some j => .ok (cloneSS σ s [("_sort", .str j)])
    | none => .error .pyError
  | k => .ok (cloneSS σ s [("_sort", k)])

/-- `AidboxResource`'s instance state (lines 186–210): the four
attributes assigned by `__init__` through `super().__setattr__`
(`aidbox` itself is threaded separately as `Client`), plus `rextra`
holding any other attribute stored by `super().__setattr__` when a
kwarg key collides with a class attribute or method name. -/
structure AidboxResource where
  resource_type : String
  _data : List (String × Value)
  _meta : Value
  rextra : List (String × Value)
deriving DecidableEq

/-- The names visible on an `AidboxResource` instance via `dir(self)`
before any field is set: its class attributes, its property, its
methods, and the attribute names inherited from `object`.  `key in
dir(self)` in `__setattr__` (line 213) tests membership here (plus any
instance attribute already stored, handled separately via `rextra`). -/
def dirNames : List String :=
  ["aidbox", "resource_type", "_data", "_meta", "root_attrs",
   "get_path", "save", "delete", "reference", "to_dict",
   "__init__", "__setattr__", "__getattr__", "__str__", "__repr__",
   "__class__", "__delattr__", "__dict__", "__dir__", "__doc__",
   "__eq__", "__format__", "__ge__", "__getattribute__", "__gt__",
   "__hash__", "__init_subclass__", "__le__", "__lt__", "__module__",
   "__ne__", "__new__", "__reduce__", "__reduce_ex__", "__sizeof__",
   "__subclasshook__", "__weakref__"]

/-- `super().__setattr__(key, value)` on an `AidboxResource`:
`root_attrs` is a property without a setter (`AttributeError`);
`resource_type`, `_data` and `_meta` update the named instance
attributes (the embedding types `resource_type` as `String` and `_data`
as a dict, so a value of another shape cannot be represented and is
reported as `pyError`; no call site produces one); every other name
becomes a plain instance attribute in `rextra`. -/
def superSetattr (r : AidboxResource) (key : String) (v : Value) :
    Except AidboxError AidboxResource :=
  if key = "root_attrs" then .error .pyError
  else if key = "resource_type" then
    match v with
    | .str t => .ok { r with resource_type := t }
    | _ => .error .pyError
  else if key = "_meta" then .ok { r with _meta := v }
  else if key = "_data" then
    match v with
    | .dict kvs => .ok { r with _data := kvs }
    | _ => .error .pyError
  else .ok { r with rextra := alSet r.rextra key v }

/-- `AidboxResource.__setattr__` (lines 212–220): a key found in
`dir(self)` goes to `super().__setattr__`; otherwise a key in
`root_attrs` (= `self.aidbox.schema[self.resource_type]`, a missing
cache entry being a `KeyError`) is stored in `self._data`; any other
key raises `AidboxResourceFieldDoesNotExist`. -/
def resSetattr (a : Client) (r : AidboxResource) (key : String)
    (v : Value) : Except AidboxError AidboxResource :=
  if key ∈ dirNames ∨ (alGet r.rextra key).isSome then
    superSetattr r key v
  else
    match alGet a.schema r.resource_type with
    | none => .error .pyError
    | some sch =>
      if key ∈ sch then .ok { r with _data := alSet r._data key v }
      else .error (.fieldDoesNotExist (invalidMsg key r.resource_type))

/-- The result of reading an attribute: either a data value, or an
internal attribute (a bound method, the client object, the
`root_attrs` property result) that is not itself a `Value`. -/
inductive GetResult where
  | value (v : Value)
  | internal (name : String)
deriving DecidableEq

/-- Reading `getattr(resource, key)`.  Python's default lookup wins
before `__getattr__` (lines 222–228) runs: the `root_attrs` property,
the named instance attributes, any instance attribute in `rextra`, and
the class's methods are found first; only then does `__getattr__`
return `self._data.get(key)` for a schema member or raise
`AidboxResourceFieldDoesNotExist`. -/
def resGetattr (a : Client) (r : AidboxResource) (key : String) :
    Except AidboxError GetResult :=
  if key = "root_attrs" then .ok (.internal "root_attrs")
  else if key = "resource_type" then .ok (.value (.str r.resource_type))
  else if key = "_data" then .ok (.value (.dict r._data))
  else if key = "_meta" then .ok (.value r._meta)
  else
    match alGet r.rextra key with
    | some v => .ok (.value v)
    | none =>
      if key ∈ dirNames then .ok (.internal key)
      else
        match alGet a.schema r.resource_type with
        | none => .error .pyError
        | some sch =>
          if key ∈ sch then .ok (.value ((alGet r._data key).getD .null))
          else .error (.fieldDoesNotExist (invalidMsg key r.resource_type))

/-- The kwargs loop of `AidboxResource.__init__` (lines 205–210): each
pair is assigned through `setattr`; an
`AidboxResourceFieldDoesNotExist` is swallowed when `skip_validation`
is true and re-raised otherwise; any other exception always
propagates. -/
def initLoop (a : Client) (skip : Bool) :
    AidboxResource → List (String × Value) →
    Except AidboxError AidboxResource
  | r, [] => .ok r
  | r, (k, v) :: rest =>
    match resSetattr a r k v with
    | .ok r' => initLoop a skip r' rest
    | .error (.fieldDoesNotExist m) =>
      if skip then initLoop a skip r rest
      else .error (.fieldDoesNotExist m)
    | .error e => .error e

/-- `AidboxResource.__init__` (lines 196–210): read
`kwargs.get('resource_type')` (every call site in the source supplies a
string; the embedding covers that case), ensure the schema cache has an
entry via `_fetch_schema`, pop `meta` into `self._meta` (defaulting to
`{}`), start with empty `self._data`, then run the kwargs loop —
which also re-assigns `resource_type` through `super().__setattr__`,
since that key is still in `kwargs`. -/
def resourceInit (u : String → String) (srv : Server) (a : Client)
    (skip : Bool) (kwargs : List (String × Value)) :
    Except AidboxError (AidboxResource × Client × List Request) :=
  match alGet kwargs "resource_type" with
  | some (.str rt) =>
    match fetch_schema u srv a rt with
    | .error e => .error e
    | .ok (_, a1, reqs) =>
      let meta := (alGet kwargs "meta").getD (.dict [])
      let kwargs' := alRemove kwargs "meta"
      let r0 : AidboxResource := ⟨rt, [], meta, []⟩
      match initLoop a1 skip r0 kwargs' with
      | .error e => .error e
      | .ok r => .ok (r, a1, reqs)
  | _ => .error .pyError

/-- `AidboxReference`'s data fields (lines 270–282); the owning client
is not part of the serializable state. -/
structure AidboxReference where
  resource_type : String
  id : Value
  display : Value
  resource : Value
deriving DecidableEq

/-- `AidboxReference.to_dict` (lines 290–293): of the four attributes
`id`, `resource_type`, `display`, `resource` — in that iteration
order — keep exactly those whose value is truthy. -/
def AidboxReference.to_dict (ref : AidboxReference) :
    List (String × Value) :=
  ([("id", ref.id), ("resource_type", Value.str ref.resource_type),
    ("display", ref.display), ("resource", ref.resource)]).filter
    (fun kv => truthy kv.2)

/-- `self.id` on a resource: `'id'` is in no `dir` name and in every
schema set stored by `_fetch_schema`, so `__getattr__` answers with
`self._data.get('id', None)`. -/
def resId (r : AidboxResource) : Value :=
  (alGet r._data "id").getD .null

/-- `AidboxResource.reference` (lines 246–248) followed by
`AidboxReference.to_dict`, as used on embedded resources during
serialization: a reference to this resource's type and id with no
display and no embedded resource. -/
def resourceReferenceDict (resource_type : String)
    (rdata : List (String × Value)) : List (String × Value) :=
  AidboxReference.to_dict
    ⟨resource_type, (alGet rdata "id").getD .null, .null, .null⟩

/-- The `convert_fn` closure of `AidboxResource.to_dict` (lines
251–257): an embedded `AidboxResource` becomes its reference's
serialization, an `AidboxReference` becomes its own serialization,
anything else passes through. -/
def convert_fn (item : Value) : Value :=
  match item with
  | .res rt rdata _ _ => .dict (resourceReferenceDict rt rdata)
  | .ref rt i d re => .dict (AidboxReference.to_dict ⟨rt, i, d, re⟩)
  | v => v

mutual

/-- Modelled from the spec: `convert_values` lives in `aidbox/utils.py`,
which is not under `src/`.  Spec §4.2 / §9: an explicit recursive
tree-walk applied uniformly through arbitrarily nested containers,
applying the conversion function at non-container values. -/
def convert_values : Value → Value
  | .dict kvs => .dict (convertPairs kvs)
  | .list xs => .list (convertList xs)
  | v => convert_fn v

/-- `convert_values` on the elements of a list. -/
def convertList : List Value → List Value
  | [] => []
  | v :: vs => convert_values v :: convertList vs

/-- `convert_values` on the values of a dict. -/
def convertPairs : List (String × Value) → List (String × Value)
  | [] => []
  | (k, v) :: kvs => (k, convert_values v) :: convertPairs kvs

end

/-- `AidboxResource.to_dict` (lines 250–261): `convert_values` applied
to `self._data` (a dict, hence the pair walk) with `convert_fn`. -/
def AidboxResource.to_dict (r : AidboxResource) :
    List (String × Value) :=
  convertPairs r._data

/-- `AidboxResource.get_path` (lines 230–234): `"{rt}/{id}"` when
`self.id` is truthy, else `"{rt}"`. -/
def get_path (r : AidboxResource) : String :=
  if truthy (resId r) then
    r.resource_type ++ "/" ++ formatVal (resId r)
  else r.resource_type

/-- `AidboxResource.save` (lines 236–241): `put` to `get_path` when
`self.id` is truthy else `post`, with `self.to_dict()` as body; on a
2xx response the code runs `self.meta = data.get('meta', {})` and
`self.id = data.get('id')` — both through `__setattr__`, since
neither name is in `dir(self)`.  A `None` or non-dict response body
makes `data.get` raise.  The request log is returned alongside. -/
def save (srv : Server) (a : Client) (r : AidboxResource) :
    Except AidboxError AidboxResource × List Request :=
  let method := if truthy (resId r) then "put" else "post"
  let (resp, reqs) :=
    do_request srv method (get_path r) (some (.dict r.to_dict)) []
  match resp with
  | .error e => (.error e, reqs)
  | .ok (some (.dict kvs)) =>
    match resSetattr a r "meta" ((alGet kvs "meta").getD (.dict [])) with
    | .error e => (.error e, reqs)
    | .ok r1 =>
      match resSetattr a r1 "id" ((alGet kvs "id").getD .null) with
      | .error e => (.error e, reqs)
      | .ok r2 => (.ok r2, reqs)
  | .ok _ => (.error .pyError, reqs)

/-- `AidboxResource.delete` (lines 243–244): a single `delete` request
at `get_path`, whose raw transport result is returned; the method body
contains no assignment, so the resource state after the call is the
receiver itself — the embedding returns it explicitly as the
post-state. -/
def deleteRes (srv : Server) (r : AidboxResource) :
    Except AidboxError (Option Value) × AidboxResource × List Request :=
  let (resp, reqs) := do_request srv "delete" (get_path r) none []
  (resp, r, reqs)

/-- The construction fold of `AidboxSearchSet.execute` (lines 115–123):
build one trusted resource per record, threading the client's schema
cache and accumulating the request log. -/
def buildAll (u : String → String) (srv : Server) :
    Client → List (List (String × Value)) →
    Except AidboxError (List AidboxResource × Client × List Request)
  | a, [] => .ok ([], a, [])
  | a, p :: ps =>
    match resourceInit u srv a true p with
    | .error e => .error e
    | .ok (r, a1, reqs) =>
      match buildAll u srv a1 ps with
      | .error e => .error e
      | .ok (rs, a2, reqs2) => .ok (r :: rs, a2, reqs ++ reqs2)

/-- `data.get('resource_type') == self.resource_type` for a record
(line 122): Python's `==` between the stored value and the target type
string. -/
def matchesType (p : List (String × Value)) (rt : String) : Bool :=
  match alGet p "resource_type" with
  | some (.str t) => t = rt
  | _ => false

/-- Each record must be a dict for `data.get('resource_type')` and
`**data` to be defined (lines 119–122); `none` models the Python error
otherwise. -/
def recordDicts : List Value → Option (List (List (String × Value)))
  | [] => some []
  | Value.dict p :: t =>
    match recordDicts t with
    | none => none
    | some ps => some (p :: ps)
  | _ :: _ => none

/-- `AidboxSearchSet.execute` (lines 112–123): fetch
`self.resource_type` with `self.params`; read the bundle's `entry`
list and each entry's `resource` payload; keep the records whose
declared `resource_type` equals the target type; construct each kept
record as a trusted (`skip_validation=True`) resource.  Malformed
bundles or non-dict records raise Python errors (`pyError`). -/
def executeSS (u : String → String) (srv : Server) (σ : Store)
    (a : Client) (s : AidboxSearchSet) :
    Except AidboxError (List AidboxResource × Client × List Request) :=
  let (resp, reqs) :=
    do_request srv "get" s.resource_type none (readRef σ s.paramsRef)
  match resp with
  | .error e => .error e
  | .ok (some (.dict kvs)) =>
    match alGet kvs "entry" with
    | some (.list entries) =>
      match entryResources entries with
      | none => .error .pyError
      | some datas =>
        match recordDicts datas with
        | none => .error .pyError
        | some ps =>
          match buildAll u srv a
              (ps.filter (fun p => matchesType p s.resource_type)) with
          | .error e => .error e
          | .ok (rs, a2, reqs2) => .ok (rs, a2, reqs ++ reqs2)
    | _ => .error .pyError
  | .ok _ => .error .pyError

/-- `AidboxSearchSet.first` (lines 136–138): `limit(1).execute()`, then
the first element or `None`. -/
def firstSS (u : String → String) (srv : Server) (σ : Store)
    (a : Client) (s : AidboxSearchSet) :
    Except AidboxError (Option AidboxResource × Client × List Request) :=
  let σs := limitSS σ s (.int 1)
  match executeSS u srv σs.1 a σs.2 with
  | .error e => .error e
  | .ok (rs, a1, reqs) => .ok (rs.head?, a1, reqs)

/-- `AidboxSearchSet.get` (lines 105–110): `search(_id=id).first()`;
an `AidboxResource` is always truthy, so a present first result is
returned and an absent one raises `AidboxResourceNotFound`. -/
def getSS (u : String → String) (srv : Server) (σ : Store)
    (a : Client) (s : AidboxSearchSet) (id : Value) :
    Except AidboxError (AidboxResource × Client × List Request) :=
  let σs := searchSS σ s [("_id", id)]
  match firstSS u srv σs.1 a σs.2 with
  | .error e => .error e
  | .ok (some r, a1, reqs) => .ok (r, a1, reqs)
  | .ok (none, _, _) => .error .resourceNotFound

/-- Total variant of `superSetattr` used by the spec-side description
of trusted construction (spec §4.2): on the argument shapes where
`superSetattr` would raise, it leaves the resource unchanged. -/
def superTotal (r : AidboxResource) (key : String) (v : Value) :
    AidboxResource :=
  if key = "root_attrs" then r
  else if key = "resource_type" then
    match v with
    | .str t => { r with resource_type := t }
    | _ => r
  else if key = "_meta" then { r with _meta := v }
  else if key = "_data" then
    match v with
    | .dict kvs => { r with _data := kvs }
    | _ => r
  else { r with rextra := alSet r.rextra key v }

/-- Spec-side trusted-construction fold (spec §4.2, `skip_validation`):
a reserved name is handled by the default attribute machinery, a schema
member is stored, and a field rejected by validation is silently
dropped rather than raising. -/
def trustedFold (sch : Finset String) :
    AidboxResource → List (String × Value) → AidboxResource
  | r, [] => r
  | r, (k, v) :: rest =>
    if k ∈ dirNames ∨ (alGet r.rextra k).isSome then
      trustedFold sch (superTotal r k v) rest
    else if k ∈ sch then
      trustedFold sch { r with _data := alSet r._data k v } rest
    else trustedFold sch r rest

/-- Spec-side description of the trusted resource `execute` builds from
one server record (spec §4.2 / §4.4): `meta` is popped into the
metadata blob, the declared `resource_type` names the type, and the
remaining fields are folded with silent dropping of the ones the schema
rejects. -/
def specTrustedResource (sch : Finset String)
    (p : List (String × Value)) : AidboxResource :=
  let rt := match alGet p "resource_type" with
    | some (.str t) => t
    | _ => ""
  trustedFold sch ⟨rt, [], (alGet p "meta").getD (.dict []), []⟩
    (alRemove p "meta")

/-! ### Helper lemmas -/

theorem readRef_append_lt (σ : Store) (x : List (String × Value))
    (i : Nat) (h : i < σ.cells.length) :
    readRef ⟨σ.cells ++ [x]⟩ i = readRef σ i := by
  simp [readRef, List.getElem?_append_left h]

theorem clone_observe (σ : Store) (s : AidboxSearchSet)
    (kw : List (String × Value)) (h : s.paramsRef < σ.cells.length) :
    observeSS (cloneSS σ s kw).1 s = observeSS σ s := by
  simp [observeSS, cloneSS, readRef_append_lt σ _ _ h]

theorem clone_fresh (σ : Store) (s : AidboxSearchSet)
    (kw : List (String × Value)) (h : s.paramsRef < σ.cells.length) :
    (cloneSS σ s kw).2.paramsRef ≠ s.paramsRef := by
  simp only [cloneSS]
  exact fun hh => absurd (hh ▸ h) (lt_irrefl _)

theorem executeSS_congr (u : String → String) (srv : Server)
    (a : Client) (σ σ' : Store) (s : AidboxSearchSet)
    (h : readRef σ' s.paramsRef = readRef σ s.paramsRef) :
    executeSS u srv σ' a s = executeSS u srv σ a s := by
  simp only [executeSS, h]

theorem clone_immutable (u : String → String) (srv : Server)
    (a : Client) (σ : Store) (s : AidboxSearchSet)
    (kw : List (String × Value)) (h : s.paramsRef < σ.cells.length) :
    observeSS (cloneSS σ s kw).1 s = observeSS σ s ∧
    (cloneSS σ s kw).2.paramsRef ≠ s.paramsRef ∧
    executeSS u srv (cloneSS σ s kw).1 a s = executeSS u srv σ a s :=
  ⟨clone_observe σ s kw h, clone_fresh σ s kw h,
   executeSS_congr u srv a σ _ s (by
     simpa [cloneSS] using readRef_append_lt σ _ _ h)⟩

/-! ### Claims -/

/-- **C1.** For every SearchSet `s` and every mutator call among
`search`, `limit`, `page`, `sort` and `clone`, the call returns a new
SearchSet instance (its parameter dict lives in a fresh cell) and
leaves `s`'s parameter mapping unchanged, so an operation performed on
`s` after the call — its observation and a subsequent `execute` —
behaves exactly as if the mutator had never been called. -/
theorem searchset_mutators_immutable (u : String → String) (srv : Server)
    (a : Client) (σ : Store) (s : AidboxSearchSet)
    (kw kw2 : List (String × Value)) (lim pg keys : Value)
    (σss : Store × AidboxSearchSet)
    (h : s.paramsRef < σ.cells.length)
    (hsort : sortSS σ s keys = .ok σss) :
    (observeSS (cloneSS σ s kw).1 s = observeSS σ s ∧
     (cloneSS σ s kw).2.paramsRef ≠ s.paramsRef ∧
     executeSS u srv (cloneSS σ s kw).1 a s = executeSS u srv σ a s) ∧
    (observeSS (searchSS σ s kw2).1 s = observeSS σ s ∧
     (searchSS σ s kw2).2.paramsRef ≠ s.paramsRef ∧
     executeSS u srv (searchSS σ s kw2).1 a s = executeSS u srv σ a s) ∧
    (observeSS (limitSS σ s lim).1 s = observeSS σ s ∧
     (limitSS σ s lim).2.paramsRef ≠ s.paramsRef ∧
     executeSS u srv (limitSS σ s lim).1 a s = executeSS u srv σ a s) ∧
    (observeSS (pageSS σ s pg).1 s = observeSS σ s ∧
     (pageSS σ s pg).2.paramsRef ≠ s.paramsRef ∧
     executeSS u srv (pageSS σ s pg).1 a s = executeSS u srv σ a s) ∧
    (observeSS σss.1 s = observeSS σ s ∧
     σss.2.paramsRef ≠ s.paramsRef ∧
     executeSS u srv σss.1 a s = executeSS u srv σ a s) := by
  refine ⟨clone_immutable u srv a σ s kw h,
    clone_immutable u srv a σ s kw2 h,
    clone_immutable u srv a σ s _ h,
    clone_immutable u srv a σ s _ h, ?_⟩
  have : ∃ x, σss = cloneSS σ s [("_sort", x)] := by
    cases keys with
    | list xs =>
      simp only [sortSS] at hsort
      cases hj : pyJoin xs with
      | none => rw [hj] at hsort; exact absurd hsort (by simp)
      | some j =>
        rw [hj] at hsort
        exact ⟨.str j, by cases hsort; rfl⟩
    | null => exact ⟨_, by cases hsort; rfl⟩
    | bool b => exact ⟨_, by cases hsort; rfl⟩
    | int n => exact ⟨_, by cases hsort; rfl⟩
    | str st => exact ⟨_, by cases hsort; rfl⟩
    | dict kvs => exact ⟨_, by cases hsort; rfl⟩
    | res t d m e => exact ⟨_, by cases hsort; rfl⟩
    | ref t i d re => exact ⟨_, by cases hsort; rfl⟩
  obtain ⟨x, hx⟩ := this
  rw [hx]
  exact clone_immutable u srv a σ s _ h

/-- Witness for C1 at a concrete store, search set and arguments. -/
theorem searchset_mutators_immutable_witness :
    (observeSS (cloneSS ⟨[[("name", .str "john")]]⟩ ⟨"Patient", 0⟩
        [("a", .int 1)]).1 ⟨"Patient", 0⟩ =
      observeSS ⟨[[("name", .str "john")]]⟩ ⟨"Patient", 0⟩ ∧
     (cloneSS ⟨[[("name", .str "john")]]⟩ ⟨"Patient", 0⟩
        [("a", .int 1)]).2.paramsRef ≠ 0 ∧
     executeSS id (fun _ => ⟨404, none, ""⟩)
        (cloneSS ⟨[[("name", .str "john")]]⟩ ⟨"Patient", 0⟩
          [("a", .int 1)]).1 ⟨"h", []⟩ ⟨"Patient", 0⟩ =
      executeSS id (fun _ => ⟨404, none, ""⟩)
        ⟨[[("name", .str "john")]]⟩ ⟨"h", []⟩ ⟨"Patient", 0⟩) ∧
    (observeSS (searchSS ⟨[[("name", .str "john")]]⟩ ⟨"Patient", 0⟩
        [("b", .int 2)]).1 ⟨"Patient", 0⟩ =
      observeSS ⟨[[("name", .str "john")]]⟩ ⟨"Patient", 0⟩ ∧
     (searchSS ⟨[[("name", .str "john")]]⟩ ⟨"Patient", 0⟩
        [("b", .int 2)]).2.paramsRef ≠ 0 ∧
     executeSS id (fun _ => ⟨404, none, ""⟩)
        (searchSS ⟨[[("name", .str "john")]]⟩ ⟨"Patient", 0⟩
          [("b", .int 2)]).1 ⟨"h", []⟩ ⟨"Patient", 0⟩ =
      executeSS id (fun _ => ⟨404, none, ""⟩)
        ⟨[[("name", .str "john")]]⟩ ⟨"h", []⟩ ⟨"Patient", 0⟩) ∧
    (observeSS (limitSS ⟨[[("name", .str "john")]]⟩ ⟨"Patient", 0⟩
        (.int 5)).1 ⟨"Patient", 0⟩ =
      observeSS ⟨[[("name", .str "john")]]⟩ ⟨"Patient", 0⟩ ∧
     (limitSS ⟨[[("name", .str "john")]]⟩ ⟨"Patient", 0⟩
        (.int 5)).2.paramsRef ≠ 0 ∧
     executeSS id (fun _ => ⟨404, none, ""⟩)
        (limitSS ⟨[[("name", .str "john")]]⟩ ⟨"Patient", 0⟩
          (.int 5)).1 ⟨"h", []⟩ ⟨"Patient", 0⟩ =
      executeSS id (fun _ => ⟨404, none, ""⟩)
        ⟨[[("name", .str "john")]]⟩ ⟨"h", []⟩ ⟨"Patient", 0⟩) ∧
    (observeSS (pageSS ⟨[[("name", .str "john")]]⟩ ⟨"Patient", 0⟩
        (.int 2)).1 ⟨"Patient", 0⟩ =
      observeSS ⟨[[("name", .str "john")]]⟩ ⟨"Patient", 0⟩ ∧
     (pageSS ⟨[[("name", .str "john")]]⟩ ⟨"Patient", 0⟩
        (.int 2)).2.paramsRef ≠ 0 ∧
     executeSS id (fun _ => ⟨404, none, ""⟩)
        (pageSS ⟨[[("name", .str "john")]]⟩ ⟨"Patient", 0⟩
          (.int 2)).1 ⟨"h", []⟩ ⟨"Patient", 0⟩ =
      executeSS id (fun _ => ⟨404, none, ""⟩)
        ⟨[[("name", .str "john")]]⟩ ⟨"h", []⟩ ⟨"Patient", 0⟩) ∧
    (observeSS (cloneSS ⟨[[("name", .str "john")]]⟩ ⟨"Patient", 0⟩
        [("_sort", .str "name")]).1 ⟨"Patient", 0⟩ =
      observeSS ⟨[[("name", .str "john")]]⟩ ⟨"Patient", 0⟩ ∧
     (cloneSS ⟨[[("name", .str "john")]]⟩ ⟨"Patient", 0⟩
        [("_sort", .str "name")]).2.paramsRef ≠ 0 ∧
     executeSS id (fun _ => ⟨404, none, ""⟩)
        (cloneSS ⟨[[("name", .str "john")]]⟩ ⟨"Patient", 0⟩
          [("_sort", .str "name")]).1 ⟨"h", []⟩ ⟨"Patient", 0⟩ =
      executeSS id (fun _ => ⟨404, none, ""⟩)
        ⟨[[("name", .str "john")]]⟩ ⟨"h", []⟩ ⟨"Patient", 0⟩) :=
  searchset_mutators_immutable id (fun _ => ⟨404, none, ""⟩) ⟨"h", []⟩
    ⟨[[("name", .str "john")]]⟩ ⟨"Patient", 0⟩ [("a", .int 1)]
    [("b", .int 2)] (.int 5) (.int 2) (.str "name")
    (cloneSS ⟨[[("name", .str "john")]]⟩ ⟨"Patient", 0⟩
      [("_sort", .str "name")])
    (by decide) rfl

/-- **C6.** A Reference serializes to exactly those keys among
`{id, resource_type, display, resource}` whose value is truthy —
false-like fields are omitted entirely, not emitted as null — and in
particular a Reference with all optional fields empty serializes to
exactly `{"id": ..., "resource_type": ...}`. -/
theorem reference_serialize_truthy (ref ref' : AidboxReference)
    (hid : truthy ref.id = true) (hrt : ref.resource_type ≠ "")
    (hd : truthy ref.display = false)
    (hr : truthy ref.resource = false) :
    AidboxReference.to_dict ref' =
      ([("id", ref'.id), ("resource_type", Value.str ref'.resource_type),
        ("display", ref'.display), ("resource", ref'.resource)]).filter
        (fun kv => truthy kv.2) ∧
    AidboxReference.to_dict ref =
      [("id", ref.id), ("resource_type", Value.str ref.resource_type)] := by
  refine ⟨rfl, ?_⟩
  have h2 : truthy (Value.str ref.resource_type) = true := by
    simp [truthy, bne_iff_ne, hrt]
  simp [AidboxReference.to_dict, List.filter, hid, h2, hd, hr]

/-- Witness for C6: a Reference with both optional fields absent, and a
Reference with a display, serialized. -/
theorem reference_serialize_truthy_witness :
    AidboxReference.to_dict ⟨"Practitioner", .str "7", .str "Dr. X", .null⟩ =
      ([("id", .str "7"), ("resource_type", .str "Practitioner"),
        ("display", .str "Dr. X"), ("resource", .null)]).filter
        (fun kv => truthy kv.2) ∧
    AidboxReference.to_dict ⟨"Patient", .str "5", .null, .null⟩ =
      [("id", .str "5"), ("resource_type", .str "Patient")] :=
  reference_serialize_truthy ⟨"Patient", .str "5", .null, .null⟩
    ⟨"Practitioner", .str "7", .str "Dr. X", .null⟩
    rfl (by decide) rfl rfl

/-- **C9.** `delete()` issues a single delete request through the
transport at `path()`, returns the raw transport result, and leaves the
resource's local state (id and field mapping) unchanged. -/
theorem delete_frame (srv : Server) (r : AidboxResource) :
    deleteRes srv r =
      ((do_request srv "delete" (get_path r) none []).1, r,
       [⟨"delete", get_path r, [], none⟩]) :=
  rfl

/-- An `Attribute` bundle entry whose meta-resource has the given
`path`, in the wire shape `_fetch_schema` consumes. -/
def attrEntry (path : List Value) : Value :=
  .dict [("resource", .dict [("path", .list path)])]

/-- An `Attribute` bundle with one entry per given `path`. -/
def attrBundle (paths : List (List Value)) : Value :=
  .dict [("entry", .list (paths.map attrEntry))]

theorem alGet_alSet_self {α : Type} (d : List (String × α)) (k : String)
    (v : α) : alGet (alSet d k v) k = some v := by
  induction d with
  | nil => simp [alSet, alGet]
  | cons kv t ih =>
    obtain ⟨k1, v1⟩ := kv
    by_cases h : k1 = k
    · simp [alSet, alGet, h]
    · simp [alSet, alGet, h, ih]

theorem entryResources_attrEntry (paths : List (List Value)) :
    entryResources (paths.map attrEntry) =
      some (paths.map (fun p => Value.dict [("path", Value.list p)])) := by
  induction paths with
  | nil => rfl
  | cons p t ih => simp [entryResources, attrEntry, alGet, ih]

theorem attrNames_firstSegment (u : String → String)
    (ps : List (String × List Value)) :
    attrNames u (ps.map (fun q =>
        Value.dict [("path", Value.list (Value.str q.1 :: q.2))])) =
      some (ps.map (fun q => u q.1)) := by
  induction ps with
  | nil => rfl
  | cons q t ih => simp [attrNames, attrFirstPath, alGet, ih]

theorem fetchSchemaMiss_spec (u : String → String) (srv : Server)
    (b : Client) (rt : String) (ps : List (String × List Value))
    (hresp : srv ⟨"get", "Attribute", [("entity", .str rt)], none⟩ =
      ⟨200, some (attrBundle (ps.map (fun q => Value.str q.1 :: q.2))),
       ""⟩) :
    fetchSchemaMiss u srv b rt =
      .ok ((ps.map (fun q => u q.1)).toFinset ∪ {"id"},
        { b with schema := (alSet b.schema rt
            ((ps.map (fun q => u q.1)).toFinset ∪ {"id"})) },
        [⟨"get", "Attribute", [("entity", .str rt)], none⟩]) := by
  have h1 := entryResources_attrEntry (ps.map (fun q => Value.str q.1 :: q.2))
  have h2 := attrNames_firstSegment u ps
  simp only [List.map_map, Function.comp_def] at h1
  simp only [fetchSchemaMiss, do_request, hresp, attrBundle,
    List.map_map, Function.comp_def]
  simp [alGet, h1, h2]

/-- Any successful run of the fetch branch stores a set containing
`"id"` under the requested type. -/
theorem fetchSchemaMiss_ok (u : String → String) (srv : Server)
    (a : Client) (rt : String) (s : Finset String) (a' : Client)
    (log : List Request)
    (h : fetchSchemaMiss u srv a rt = .ok (s, a', log)) :
    "id" ∈ s ∧ a' = { a with schema := alSet a.schema rt s } := by
  unfold fetchSchemaMiss at h
  rcases hq : do_request srv "get" "Attribute" none [("entity", Value.str rt)]
    with ⟨resp, reqs⟩
  rw [hq] at h
  cases resp with
  | error e => simp at h
  | ok body =>
    cases body with
    | none => simp at h
    | some v =>
      cases v with
      | null => simp at h
      | bool b => simp at h
      | int n => simp at h
      | str st => simp at h
      | list xs => simp at h
      | res t1 d1 m1 e1 => simp at h
      | ref t1 i1 d1 r1 => simp at h
      | dict kvs =>
        cases he : alGet kvs "entry" with
        | none => simp [he] at h
        | some ev =>
          cases ev with
          | null => simp [he] at h
          | bool b => simp [he] at h
          | int n => simp [he] at h
          | str st => simp [he] at h
          | dict d2 => simp [he] at h
          | res t1 d1 m1 e1 => simp [he] at h
          | ref t1 i1 d1 r1 => simp [he] at h
          | list entries =>
            simp only [he] at h
            cases her : entryResources entries with
            | none => simp [her] at h
            | some attrs =>
              simp only [her] at h
              cases han : attrNames u attrs with
              | none => simp [han] at h
              | some names =>
                simp only [han, Except.ok.injEq, Prod.mk.injEq] at h
                obtain ⟨hs, ha, -⟩ := h
                subst hs
                exact ⟨by simp, ha.symm⟩

/-- **C2.** `_fetch_schema` returns the cached field-name set unchanged
(no request) when an entry for the type is already in the cache;
otherwise it fetches `Attribute` meta-resources with `entity =
resource_type`, takes the first segment of each result's `path`,
converts each with the naming collaborator, unions with `{"id"}`,
stores the set under the resource type and returns it. -/
theorem fetch_schema_spec (u : String → String) (srv : Server)
    (a b : Client) (rt rt2 : String) (s : Finset String)
    (ps : List (String × List Value))
    (hhit : alGet a.schema rt = some s) (hid : "id" ∈ s)
    (hmiss : alGet b.schema rt2 = none)
    (hresp : srv ⟨"get", "Attribute", [("entity", .str rt2)], none⟩ =
      ⟨200, some (attrBundle (ps.map (fun q => Value.str q.1 :: q.2))),
       ""⟩) :
    fetch_schema u srv a rt = .ok (s, a, []) ∧
    fetch_schema u srv b rt2 =
      .ok ((ps.map (fun q => u q.1)).toFinset ∪ {"id"},
        { b with schema := (alSet b.schema rt2
            ((ps.map (fun q => u q.1)).toFinset ∪ {"id"})) },
        [⟨"get", "Attribute", [("entity", .str rt2)], none⟩]) := by
  constructor
  · simp [fetch_schema, hhit, Finset.ne_empty_of_mem hid]
  · simp [fetch_schema, hmiss, fetchSchemaMiss_spec u srv b rt2 ps hresp]

/-- Witness for C2: a cache hit on `Patient` and a fetch for
`Observation` against a server answering with one `Attribute` whose
path is `["name", "given"]`. -/
theorem fetch_schema_spec_witness :
    fetch_schema id
      (fun _ => ⟨200,
        some (attrBundle [[Value.str "name", Value.str "given"]]), ""⟩)
      ⟨"h", [("Patient", (insert "name" {"id"} : Finset String))]⟩ "Patient" =
      .ok ((insert "name" {"id"} : Finset String), ⟨"h", [("Patient", (insert "name" {"id"} : Finset String))]⟩, []) ∧
    fetch_schema id
      (fun _ => ⟨200,
        some (attrBundle [[Value.str "name", Value.str "given"]]), ""⟩)
      ⟨"h", []⟩ "Observation" =
      .ok (([("name", [Value.str "given"])].map
          (fun q => id q.1)).toFinset ∪ {"id"},
        { host := "h", schema := (alSet [] "Observation"
            (([("name", [Value.str "given"])].map
              (fun q => id q.1)).toFinset ∪ {"id"})) },
        [⟨"get", "Attribute", [("entity", .str "Observation")], none⟩]) :=
  fetch_schema_spec id
    (fun _ => ⟨200,
      some (attrBundle [[Value.str "name", Value.str "given"]]), ""⟩)
    ⟨"h", [("Patient", (insert "name" {"id"} : Finset String))]⟩ ⟨"h", []⟩ "Patient"
    "Observation" (insert "name" {"id"} : Finset String) [("name", [Value.str "given"])]
    rfl (by decide) rfl rfl

/-- **C10.** Every schema set stored in the client's cache contains
`"id"`; consequently — the cache-hit test checking truthiness — once a
successful `_fetch_schema` has run for a type, a second call for that
type returns the same set, leaves the client unchanged and issues no
request, so at most one schema fetch occurs per resource type. -/
theorem schema_cache_fetch_once (u : String → String) (srv : Server)
    (a : Client) (rt : String) (s : Finset String) (a' : Client)
    (log : List Request)
    (hwf : ∀ rt' s', alGet a.schema rt' = some s' → "id" ∈ s')
    (h : fetch_schema u srv a rt = .ok (s, a', log)) :
    "id" ∈ s ∧ fetch_schema u srv a' rt = .ok (s, a', []) := by
  unfold fetch_schema at h
  cases hc : alGet a.schema rt with
  | none =>
    simp only [hc] at h
    obtain ⟨hid, ha⟩ := fetchSchemaMiss_ok u srv a rt s a' log h
    refine ⟨hid, ?_⟩
    have : alGet a'.schema rt = some s := by
      rw [ha]; exact alGet_alSet_self a.schema rt s
    simp [fetch_schema, this, Finset.ne_empty_of_mem hid]
  | some s0 =>
    simp only [hc] at h
    have hid0 : "id" ∈ s0 := hwf rt s0 hc
    rw [if_neg (Finset.ne_empty_of_mem hid0)] at h
    obtain ⟨hs, ha, -⟩ : s0 = s ∧ a = a' ∧ log = [] := by
      cases h; exact ⟨rfl, rfl, rfl⟩
    subst hs; subst ha
    exact ⟨hid0, by simp [fetch_schema, hc,
      Finset.ne_empty_of_mem hid0]⟩

/-- Witness for C10: a first fetch for `Patient` on an empty cache,
then the guaranteed request-free second call. -/
theorem schema_cache_fetch_once_witness :
    "id" ∈ ((["name"] : List String).toFinset ∪ {"id"}) ∧
    fetch_schema id
      (fun _ => ⟨200, some (attrBundle [[Value.str "name"]]), ""⟩)
      ⟨"h", [("Patient", (["name"] : List String).toFinset ∪ {"id"})]⟩
      "Patient" =
      .ok ((["name"] : List String).toFinset ∪ {"id"},
        ⟨"h", [("Patient", (["name"] : List String).toFinset ∪ {"id"})]⟩,
        []) :=
  schema_cache_fetch_once id
    (fun _ => ⟨200, some (attrBundle [[Value.str "name"]]), ""⟩)
    ⟨"h", []⟩ "Patient" ((["name"] : List String).toFinset ∪ {"id"})
    ⟨"h", [("Patient", (["name"] : List String).toFinset ∪ {"id"})]⟩
    [⟨"get", "Attribute", [("entity", .str "Patient")], none⟩]
    (fun _ _ hh => Option.noConfusion hh) rfl

/-- Counterexample to C3 as stated: when the fetched schema for a type
happens to contain a name that is also a class method — here `"save"`
in the schema for `Patient` — reading that never-set field does not
return the none sentinel: Python's default attribute lookup finds the
bound method before `__getattr__` runs.  The claim's clause
"`get_field` of a schema member that was never set returns the none
sentinel" is therefore false at this input. -/
theorem resource_getattr_reserved_counterexample :
    "save" ∈ (insert "save" {"id"} : Finset String) ∧
    alGet (AidboxResource.mk "Patient" [] (.dict []) [])._data "save" =
      none ∧
    resGetattr ⟨"h", [("Patient", (insert "save" {"id"} : Finset String))]⟩
      (AidboxResource.mk "Patient" [] (.dict []) []) "save" =
      .ok (.internal "save") ∧
    resGetattr ⟨"h", [("Patient", (insert "save" {"id"} : Finset String))]⟩
      (AidboxResource.mk "Patient" [] (.dict []) []) "save" ≠
      .ok (.value .null) :=
  ⟨by decide, rfl, rfl,
   fun h => GetResult.noConfusion (Except.ok.inj h)⟩

/-- **C3 (amended).** For a field name that is neither a reserved
attribute/method name nor a schema member, both `set_field` and
`get_field` fail with `FieldNotInSchema`; for a schema member that is
not a reserved name, `set_field` stores the value and a subsequent
`get_field` returns it; and `get_field` of a schema member that was
never set *and is not a reserved attribute/method name* returns the
none sentinel. -/
theorem resource_field_validation (a : Client) (r : AidboxResource)
    (sch : Finset String) (k1 k2 k3 : String) (v : Value)
    (hs : alGet a.schema r.resource_type = some sch)
    (h1d : k1 ∉ dirNames) (h1s : k1 ∉ sch)
    (hx1 : alGet r.rextra k1 = none)
    (h2d : k2 ∉ dirNames) (h2s : k2 ∈ sch)
    (hx2 : alGet r.rextra k2 = none)
    (h3d : k3 ∉ dirNames) (h3s : k3 ∈ sch)
    (hx3 : alGet r.rextra k3 = none)
    (h3n : alGet r._data k3 = none) :
    resSetattr a r k1 v =
      .error (.fieldDoesNotExist (invalidMsg k1 r.resource_type)) ∧
    resGetattr a r k1 =
      .error (.fieldDoesNotExist (invalidMsg k1 r.resource_type)) ∧
    resSetattr a r k2 v = .ok { r with _data := alSet r._data k2 v } ∧
    resGetattr a { r with _data := alSet r._data k2 v } k2 =
      .ok (.value v) ∧
    resGetattr a r k3 = .ok (.value .null) := by
  have hne : ∀ k : String, k ∉ dirNames → k ≠ "root_attrs" ∧
      k ≠ "resource_type" ∧ k ≠ "_data" ∧ k ≠ "_meta" := by
    intro k hk
    refine ⟨?_, ?_, ?_, ?_⟩ <;>
      exact fun hh => hk (by rw [hh]; simp [dirNames])
  obtain ⟨e1, e2, e3, e4⟩ := hne k1 h1d
  obtain ⟨f1, f2, f3, f4⟩ := hne k2 h2d
  obtain ⟨g1, g2, g3, g4⟩ := hne k3 h3d
  refine ⟨?_, ?_, ?_, ?_, ?_⟩
  · simp [resSetattr, h1d, hx1, hs, h1s]
  · simp [resGetattr, e1, e2, e3, e4, hx1, h1d, hs, h1s]
  · simp [resSetattr, h2d, hx2, hs, h2s]
  · simp [resGetattr, f1, f2, f3, f4, hx2, h2d, hs, h2s,
      alGet_alSet_self]
  · simp [resGetattr, g1, g2, g3, g4, hx3, h3d, hs, h3s, h3n]

/-- Witness for C3 (amended) with schema `{"name", "id"}` for
`Patient`: `"age"` is rejected by both accessors, `"name"` stores and
reads back, and never-set `"name"` reads as the none sentinel. -/
theorem resource_field_validation_witness :
    resSetattr ⟨"h", [("Patient", (insert "name" {"id"} : Finset String))]⟩
      (AidboxResource.mk "Patient" [] (.dict []) []) "age" (.int 33) =
      .error (.fieldDoesNotExist (invalidMsg "age" "Patient")) ∧
    resGetattr ⟨"h", [("Patient", (insert "name" {"id"} : Finset String))]⟩
      (AidboxResource.mk "Patient" [] (.dict []) []) "age" =
      .error (.fieldDoesNotExist (invalidMsg "age" "Patient")) ∧
    resSetattr ⟨"h", [("Patient", (insert "name" {"id"} : Finset String))]⟩
      (AidboxResource.mk "Patient" [] (.dict []) []) "name"
      (.str "john") =
      .ok { AidboxResource.mk "Patient" [] (.dict []) [] with
            _data := (alSet [] "name" (.str "john")) } ∧
    resGetattr ⟨"h", [("Patient", (insert "name" {"id"} : Finset String))]⟩
      { AidboxResource.mk "Patient" [] (.dict []) [] with
        _data := (alSet [] "name" (.str "john")) } "name" =
      .ok (.value (.str "john")) ∧
    resGetattr ⟨"h", [("Patient", (insert "name" {"id"} : Finset String))]⟩
      (AidboxResource.mk "Patient" [] (.dict []) []) "name" =
      .ok (.value .null) :=
  resource_field_validation
    ⟨"h", [("Patient", (insert "name" {"id"} : Finset String))]⟩
    (AidboxResource.mk "Patient" [] (.dict []) [])
    (insert "name" {"id"}) "age" "name" "name" (.str "john")
    rfl (by decide) (by decide) rfl (by decide) (by decide) rfl
    (by decide) (by decide) rfl rfl

/-- **C7.** `first()` returns the sole element of `limit(1).execute()`
when that result is non-empty and the none sentinel when it is empty
(`List.head?` of the result); `get(id)` returns the result of
`search(_id=id).first()` when present and fails with
`ResourceNotFound` when no element is returned. -/
theorem first_get_spec (u : String → String) (srv : Server) (σ : Store)
    (a : Client) (s : AidboxSearchSet) (idv : Value)
    (rs : List AidboxResource) (a1 : Client) (reqs : List Request)
    (ores : Option AidboxResource) (a2 : Client) (reqs2 : List Request)
    (hexec : executeSS u srv (limitSS σ s (.int 1)).1 a
      (limitSS σ s (.int 1)).2 = .ok (rs, a1, reqs))
    (hfirst : firstSS u srv (searchSS σ s [("_id", idv)]).1 a
      (searchSS σ s [("_id", idv)]).2 = .ok (ores, a2, reqs2)) :
    firstSS u srv σ a s = .ok (rs.head?, a1, reqs) ∧
    getSS u srv σ a s idv =
      (match ores with
       | some r => .ok (r, a2, reqs2)
       | none => .error .resourceNotFound) := by
  constructor
  · simp [firstSS, hexec]
  · cases ores with
    | some r => simp [getSS, hfirst]
    | none => simp [getSS, hfirst]

/-- Witness for C7: a server answering every search with an empty
bundle — `first()` yields the none sentinel and `get("5")` raises
`ResourceNotFound`. -/
theorem first_get_spec_witness :
    firstSS id (fun _ => ⟨200, some (.dict [("entry", .list [])]), ""⟩)
      ⟨[[]]⟩ ⟨"h", []⟩ ⟨"Patient", 0⟩ =
      .ok (none, ⟨"h", []⟩,
        [⟨"get", "Patient", [("_count", .int 1)], none⟩]) ∧
    getSS id (fun _ => ⟨200, some (.dict [("entry", .list [])]), ""⟩)
      ⟨[[]]⟩ ⟨"h", []⟩ ⟨"Patient", 0⟩ (.str "5") =
      .error .resourceNotFound :=
  first_get_spec id
    (fun _ => ⟨200, some (.dict [("entry", .list [])]), ""⟩)
    ⟨[[]]⟩ ⟨"h", []⟩ ⟨"Patient", 0⟩ (.str "5")
    [] ⟨"h", []⟩ [⟨"get", "Patient", [("_count", .int 1)], none⟩]
    none ⟨"h", []⟩
    [⟨"get", "Patient", [("_id", .str "5"), ("_count", .int 1)], none⟩]
    rfl rfl

/-- **C4.** Evaluation of `save()` exhibiting the divergence from the
claim.  First conjunct — the failing input: for a `Patient` whose
schema is `{"name", "id"}` and a server that answers the create with a
2xx response carrying `meta` and `id`, `save()` raises
`AidboxResourceFieldDoesNotExist` instead of overwriting the local
meta and id: `self.meta = data.get('meta', {})` runs through
`__setattr__` (`'meta'` is not in `dir(self)` — the instance attribute
is `_meta`) and is validated against the schema.  Second conjunct —
the request routing the claim describes is as stated (`post` to
`"Patient"` without id, `put` to `"Patient/5"` with id), and even when
`'meta'` *is* in the schema the response meta lands in the `_data`
field map while the separate `_meta` blob (here `{"old": "m"}`) is
never updated. -/
theorem save_meta_validation_bug :
    save (fun _ => ⟨201, some (.dict [("meta",
          .dict [("versionId", .str "1")]), ("id", .str "5")]), ""⟩)
      ⟨"h", [("Patient", (insert "name" {"id"} : Finset String))]⟩
      (AidboxResource.mk "Patient" [("name", .str "john")]
        (.dict []) []) =
      (.error (.fieldDoesNotExist (invalidMsg "meta" "Patient")),
       [⟨"post", "Patient", [], some (.dict [("name", .str "john")])⟩]) ∧
    save (fun _ => ⟨200, some (.dict [("meta",
          .dict [("versionId", .str "1")]), ("id", .str "5")]), ""⟩)
      ⟨"h", [("Patient",
        (insert "meta" (insert "name" {"id"}) : Finset String))]⟩
      (AidboxResource.mk "Patient"
        [("name", .str "john"), ("id", .str "5")]
        (.dict [("old", .str "m")]) []) =
      (.ok (AidboxResource.mk "Patient"
        [("name", .str "john"), ("id", .str "5"),
         ("meta", .dict [("versionId", .str "1")])]
        (.dict [("old", .str "m")]) []),
       [⟨"put", "Patient/5", [],
         some (.dict [("name", .str "john"), ("id", .str "5")])⟩]) :=
  ⟨rfl, rfl⟩

theorem alGet_eq_none_of_not_mem {α : Type} (d : List (String × α))
    (k : String) (h : k ∉ d.map Prod.fst) : alGet d k = none := by
  induction d with
  | nil => rfl
  | cons kv t ih =>
    obtain ⟨k1, v1⟩ := kv
    simp only [List.map_cons, List.mem_cons] at h
    push_neg at h
    simp [alGet, Ne.symm h.1, ih h.2]

theorem alSet_append_of_none {α : Type} (d : List (String × α))
    (k : String) (v : α) (h : alGet d k = none) :
    alSet d k v = d ++ [(k, v)] := by
  induction d with
  | nil => rfl
  | cons kv t ih =>
    obtain ⟨k1, v1⟩ := kv
    by_cases hk : k1 = k
    · simp [alGet, hk] at h
    · simp only [alGet, if_neg hk] at h
      simp [alSet, hk, ih h]

theorem alGet_append_of_none {α : Type} (d1 d2 : List (String × α))
    (k : String) (h : alGet d1 k = none) :
    alGet (d1 ++ d2) k = alGet d2 k := by
  induction d1 with
  | nil => rfl
  | cons kv t ih =>
    obtain ⟨k1, v1⟩ := kv
    by_cases hk : k1 = k
    · simp [alGet, hk] at h
    · simp only [alGet, if_neg hk] at h
      simp [alGet, hk, ih h]

theorem alRemove_of_not_mem {α : Type} (d : List (String × α))
    (k : String) (h : k ∉ d.map Prod.fst) : alRemove d k = d := by
  induction d with
  | nil => rfl
  | cons kv t ih =>
    obtain ⟨k1, v1⟩ := kv
    simp only [List.map_cons, List.mem_cons] at h
    push_neg at h
    have ht := ih h.2
    simp only [alRemove] at ht ⊢
    rw [List.filter_cons, if_pos (by simp [Ne.symm h.1]), ht]

/-- The validated (`skip_validation=False`) kwargs loop over fresh
schema fields appends them to the field map in order. -/
theorem initLoop_valid (a : Client) (sch : Finset String) :
    ∀ (fields : List (String × Value)) (r : AidboxResource),
    alGet a.schema r.resource_type = some sch →
    (∀ kv ∈ fields, kv.1 ∈ sch ∧ kv.1 ∉ dirNames ∧
      alGet r.rextra kv.1 = none ∧ alGet r._data kv.1 = none) →
    (fields.map Prod.fst).Nodup →
    initLoop a false r fields = .ok { r with _data := r._data ++ fields }
  | [], r, _, _, _ => by simp [initLoop]
  | (k, v) :: rest, r, hs, hf, hnd => by
    obtain ⟨hks, hkd, hkx, hkn⟩ := hf (k, v) (by simp)
    have hset : resSetattr a r k v =
        .ok { r with _data := alSet r._data k v } := by
      simp [resSetattr, hkd, hkx, hs, hks]
    simp only [initLoop, hset]
    have hrest := initLoop_valid a sch rest
      { r with _data := alSet r._data k v } (by simpa using hs) ?_ ?_
    · rw [hrest]
      rw [alSet_append_of_none r._data k v hkn]
      simp
    · intro kv hkv
      obtain ⟨h1, h2, h3, h4⟩ := hf kv (by simp [hkv])
      refine ⟨h1, h2, h3, ?_⟩
      rw [alSet_append_of_none r._data k v hkn,
        alGet_append_of_none _ _ _ h4]
      have : kv.1 ≠ k := by
        simp only [List.map_cons, List.nodup_cons] at hnd
        intro hh
        exact hnd.1 (hh ▸ (List.mem_map_of_mem Prod.fst hkv))
      simp [alGet, this.symm]
    · simp only [List.map_cons, List.nodup_cons] at hnd
      exact hnd.2

theorem convertPairs_eq_map (d : List (String × Value)) :
    convertPairs d = d.map (fun kv => (kv.1, convert_values kv.2)) := by
  induction d with
  | nil => rfl
  | cons kv t ih => simp [convertPairs, ih]

theorem convertList_eq_map (xs : List Value) :
    convertList xs = xs.map convert_values := by
  induction xs with
  | nil => rfl
  | cons x t ih => simp [convertList, ih]

/-- **C5.** Round-trip: a Resource built by validated assignment of
fresh schema fields serializes back to exactly those fields, with an
embedded Resource value replaced by its reference form, a Reference
value replaced by its own serialization, scalars passed through, and
the replacement applied recursively through arbitrarily nested lists
and dicts (`convert_values` is modelled from the spec, `aidbox/utils.py`
not being under `src/`). -/
theorem resource_serialize_roundtrip (u : String → String) (srv : Server)
    (a : Client) (rt : String) (sch : Finset String)
    (fields : List (String × Value)) (rt2 : String)
    (d2 : List (String × Value)) (m2 : Value)
    (ex2 : List (String × Value)) (rt3 : String) (i3 di3 re3 : Value)
    (s3 : String) (n3 : Int) (xs3 : List Value)
    (d4 : List (String × Value))
    (hs : alGet a.schema rt = some sch) (hid : "id" ∈ sch)
    (hf : ∀ kv ∈ fields, kv.1 ∈ sch ∧ kv.1 ∉ dirNames)
    (hmeta : "meta" ∉ fields.map Prod.fst)
    (hnd : (fields.map Prod.fst).Nodup) :
    resourceInit u srv a false (("resource_type", .str rt) :: fields) =
      .ok (AidboxResource.mk rt fields (.dict []) [], a, []) ∧
    AidboxResource.to_dict (AidboxResource.mk rt fields (.dict []) []) =
      fields.map (fun kv => (kv.1, convert_values kv.2)) ∧
    convert_values (.res rt2 d2 m2 ex2) =
      .dict (resourceReferenceDict rt2 d2) ∧
    convert_values (.ref rt3 i3 di3 re3) =
      .dict (AidboxReference.to_dict ⟨rt3, i3, di3, re3⟩) ∧
    convert_values (.str s3) = .str s3 ∧
    convert_values .null = .null ∧
    convert_values (.int n3) = .int n3 ∧
    convert_values (.list xs3) = .list (xs3.map convert_values) ∧
    convert_values (.dict d4) =
      .dict (d4.map (fun kv => (kv.1, convert_values kv.2))) := by
  refine ⟨?_, ?_, rfl, rfl, rfl, rfl, rfl, ?_, ?_⟩
  · have hfs : fetch_schema u srv a rt = Except.ok (sch, a, []) := by
      simp [fetch_schema, hs, Finset.ne_empty_of_mem hid]
    have hmet := alGet_eq_none_of_not_mem fields "meta" hmeta
    have hrem := alRemove_of_not_mem fields "meta" hmeta
    have hloop := initLoop_valid a sch fields
      (AidboxResource.mk rt [] (Value.dict []) []) hs
      (fun kv hkv => ⟨(hf kv hkv).1, (hf kv hkv).2, rfl, rfl⟩) hnd
    have e1 : alGet (("resource_type", Value.str rt) :: fields)
        "resource_type" = some (Value.str rt) := rfl
    have e2 : alGet (("resource_type", Value.str rt) :: fields) "meta" =
        alGet fields "meta" := rfl
    have e3 : alRemove (("resource_type", Value.str rt) :: fields)
        "meta" = ("resource_type", Value.str rt) :: alRemove fields
        "meta" := rfl
    have hstep : initLoop a false
        (AidboxResource.mk rt [] (Value.dict []) [])
        (("resource_type", Value.str rt) :: fields) =
        initLoop a false (AidboxResource.mk rt [] (Value.dict []) [])
        fields := by
      simp only [initLoop]
      rw [show resSetattr a (AidboxResource.mk rt [] (Value.dict []) [])
        "resource_type" (Value.str rt) =
        .ok (AidboxResource.mk rt [] (Value.dict []) []) from rfl]
    simp only [resourceInit, e1, e2, e3, hmet, hrem, hfs,
      Option.getD_none]
    rw [hstep, hloop]
    simp
  · exact convertPairs_eq_map fields
  · rw [show convert_values (Value.list xs3) =
      Value.list (convertList xs3) from rfl, convertList_eq_map]
  · rw [show convert_values (Value.dict d4) =
      Value.dict (convertPairs d4) from rfl, convertPairs_eq_map]

/-- Witness for C5: a `Patient` with a string field, an embedded
Resource field and a Reference field, constructed by validated
assignment and serialized. -/
theorem resource_serialize_roundtrip_witness :
    resourceInit id (fun _ => ⟨404, none, ""⟩)
      ⟨"h", [("Patient", (insert "name" (insert "contact"
        (insert "link" {"id"})) : Finset String))]⟩ false
      (("resource_type", .str "Patient") ::
        [("name", .str "john"),
         ("contact", .res "Practitioner" [("id", .str "7")]
           (.dict []) []),
         ("link", .ref "Patient" (.str "9") .null .null)]) =
      .ok (AidboxResource.mk "Patient"
        [("name", .str "john"),
         ("contact", .res "Practitioner" [("id", .str "7")]
           (.dict []) []),
         ("link", .ref "Patient" (.str "9") .null .null)]
        (.dict []) [],
        ⟨"h", [("Patient", (insert "name" (insert "contact"
          (insert "link" {"id"})) : Finset String))]⟩, []) ∧
    AidboxResource.to_dict (AidboxResource.mk "Patient"
      [("name", .str "john"),
       ("contact", .res "Practitioner" [("id", .str "7")]
         (.dict []) []),
       ("link", .ref "Patient" (.str "9") .null .null)]
      (.dict []) []) =
      ([("name", .str "john"),
        ("contact", .res "Practitioner" [("id", .str "7")]
          (.dict []) []),
        ("link", .ref "Patient" (.str "9") .null .null)]).map
        (fun kv => (kv.1, convert_values kv.2)) ∧
    convert_values (.res "Practitioner" [("id", .str "7")] (.dict []) []) =
      .dict (resourceReferenceDict "Practitioner" [("id", .str "7")]) ∧
    convert_values (.ref "Patient" (.str "9") .null .null) =
      .dict (AidboxReference.to_dict ⟨"Patient", .str "9", .null, .null⟩) ∧
    convert_values (.str "x") = .str "x" ∧
    convert_values .null = .null ∧
    convert_values (.int 3) = .int 3 ∧
    convert_values (.list [.str "a", .dict [("b", .int 1)]]) =
      .list (([.str "a", .dict [("b", .int 1)]]).map convert_values) ∧
    convert_values (.dict [("c", .list [.int 2])]) =
      .dict (([("c", .list [.int 2])]).map
        (fun kv => (kv.1, convert_values kv.2))) :=
  resource_serialize_roundtrip id (fun _ => ⟨404, none, ""⟩)
    ⟨"h", [("Patient", (insert "name" (insert "contact"
      (insert "link" {"id"})) : Finset String))]⟩ "Patient"
    (insert "name" (insert "contact" (insert "link" {"id"})))
    [("name", .str "john"),
     ("contact", .res "Practitioner" [("id", .str "7")] (.dict []) []),
     ("link", .ref "Patient" (.str "9") .null .null)]
    "Practitioner" [("id", .str "7")] (.dict []) []
    "Patient" (.str "9") .null .null
    "x" 3 [.str "a", .dict [("b", .int 1)]] [("c", .list [.int 2])]
    rfl (by decide) (by decide) (by decide) (by decide)

theorem superSetattr_total (r : AidboxResource) (k : String) (v : Value)
    (h1 : k ≠ "root_attrs") (h2 : k ≠ "_data")
    (h3 : k = "resource_type" → v = Value.str r.resource_type) :
    superSetattr r k v = .ok (superTotal r k v) := by
  by_cases hk : k = "resource_type"
  · have hv := h3 hk
    subst hv
    simp [superSetattr, superTotal, h1, hk]
  · by_cases hm : k = "_meta"
    · simp [superSetattr, superTotal, h1, hk, hm]
    · simp [superSetattr, superTotal, h1, hk, hm, h2]

theorem superTotal_resource_type (r : AidboxResource) (k : String)
    (v : Value) (h3 : k = "resource_type" → v = Value.str r.resource_type) :
    (superTotal r k v).resource_type = r.resource_type := by
  by_cases hr : k = "root_attrs"
  · simp [superTotal, hr]
  · by_cases hk : k = "resource_type"
    · have hv := h3 hk
      subst hv
      simp [superTotal, hr, hk]
    · by_cases hm : k = "_meta"
      · simp [superTotal, hr, hk, hm]
      · by_cases hd : k = "_data"
        · cases v <;> simp [superTotal, hr, hk, hm, hd]
        · simp [superTotal, hr, hk, hm, hd]

/-- Under well-formed record keys, the trusted (`skip_validation=True`)
kwargs loop never raises and computes the spec-side trusted fold:
schema-rejected fields are silently dropped. -/
theorem initLoop_trusted (a : Client) (sch : Finset String) :
    ∀ (p : List (String × Value)) (r : AidboxResource),
    alGet a.schema r.resource_type = some sch →
    (∀ kv ∈ p, kv.1 ≠ "root_attrs" ∧ kv.1 ≠ "_data" ∧
      (kv.1 = "resource_type" → kv.2 = Value.str r.resource_type)) →
    initLoop a true r p = .ok (trustedFold sch r p)
  | [], r, _, _ => by simp [initLoop, trustedFold]
  | (k, v) :: rest, r, hs, hp => by
    obtain ⟨h1, h2, h3⟩ := hp (k, v) (by simp)
    by_cases hd : k ∈ dirNames ∨ (alGet r.rextra k).isSome
    · have hset : resSetattr a r k v = .ok (superTotal r k v) := by
        rw [resSetattr, if_pos hd]
        exact superSetattr_total r k v h1 h2 h3
      simp only [initLoop, hset, trustedFold, if_pos hd]
      exact initLoop_trusted a sch rest (superTotal r k v)
        (by rw [superTotal_resource_type r k v h3]; exact hs)
        (fun kv hkv => by
          obtain ⟨g1, g2, g3⟩ := hp kv (by simp [hkv])
          refine ⟨g1, g2, fun hh => ?_⟩
          rw [superTotal_resource_type r k v h3]
          exact g3 hh)
    · by_cases hks : k ∈ sch
      · have hset : resSetattr a r k v =
            .ok { r with _data := alSet r._data k v } := by
          rw [resSetattr, if_neg hd]
          simp [hs, hks]
        simp only [initLoop, hset, trustedFold, if_neg hd, if_pos hks]
        exact initLoop_trusted a sch rest
          { r with _data := alSet r._data k v } hs
          (fun kv hkv => hp kv (by simp [hkv]))
      · have hset : resSetattr a r k v =
            .error (.fieldDoesNotExist (invalidMsg k r.resource_type)) := by
          rw [resSetattr, if_neg hd]
          simp [hs, hks]
        simp only [initLoop, hset, trustedFold, if_neg hd, if_neg hks]
        exact initLoop_trusted a sch rest r hs
          (fun kv hkv => hp kv (by simp [hkv]))

/-- A record whose type-test succeeded declares exactly the search
set's target type. -/
theorem matchesType_eq (p : List (String × Value)) (rt : String)
    (h : matchesType p rt = true) :
    alGet p "resource_type" = some (Value.str rt) := by
  unfold matchesType at h
  cases hg : alGet p "resource_type" with
  | none => rw [hg] at h; simp at h
  | some v => rw [hg] at h; cases v <;> simp_all

/-- `buildAll` over well-formed matching records constructs the
spec-side trusted resources in order with no schema fetch. -/
theorem buildAll_trusted (u : String → String) (srv : Server)
    (a : Client) (sch : Finset String) (rt : String)
    (hs : alGet a.schema rt = some sch) (hid : "id" ∈ sch) :
    ∀ ps : List (List (String × Value)),
    (∀ p ∈ ps, alGet p "resource_type" = some (Value.str rt) ∧
      ∀ kv ∈ p, kv.1 ≠ "root_attrs" ∧ kv.1 ≠ "_data" ∧
        (kv.1 = "resource_type" → kv.2 = Value.str rt)) →
    buildAll u srv a ps = .ok (ps.map (specTrustedResource sch), a, [])
  | [], _ => by simp [buildAll]
  | p :: rest, hp => by
    obtain ⟨hrt, hkv⟩ := hp p (by simp)
    have hinit : resourceInit u srv a true p =
        .ok (specTrustedResource sch p, a, []) := by
      have hfs : fetch_schema u srv a rt = Except.ok (sch, a, []) := by
        simp [fetch_schema, hs, Finset.ne_empty_of_mem hid]
      have hloop := initLoop_trusted a sch (alRemove p "meta")
        (AidboxResource.mk rt [] ((alGet p "meta").getD (.dict [])) [])
        hs (fun kv hkv2 => hkv kv (List.mem_of_mem_filter hkv2))
      simp only [resourceInit, hrt, hfs, hloop]
      simp [specTrustedResource, hrt]
    simp only [buildAll, hinit]
    rw [buildAll_trusted u srv a sch rt hs hid rest
      (fun q hq => hp q (by simp [hq]))]
    simp

theorem entryResources_records (ps : List (List (String × Value))) :
    entryResources (ps.map (fun p =>
      Value.dict [("resource", Value.dict p)])) =
      some (ps.map Value.dict) := by
  induction ps with
  | nil => rfl
  | cons p t ih => simp [entryResources, alGet, ih]

theorem recordDicts_dicts (ps : List (List (String × Value))) :
    recordDicts (ps.map Value.dict) = some ps := by
  induction ps with
  | nil => rfl
  | cons p t ih => simp [recordDicts, ih]

/-- **C8.** `execute()` returns, in server order, one trusted
(`skip_validation=True`) Resource per returned record whose declared
`resource_type` equals the target type — each equal to the spec-side
trusted construction in which schema-rejected fields are silently
dropped rather than raising — while records with a mismatched or
absent `resource_type` are silently excluded. -/
theorem execute_trusted_spec (u : String → String) (srv : Server)
    (σ : Store) (a : Client) (s : AidboxSearchSet) (sch : Finset String)
    (ps : List (List (String × Value)))
    (hs : alGet a.schema s.resource_type = some sch) (hid : "id" ∈ sch)
    (hsrv : srv ⟨"get", s.resource_type, readRef σ s.paramsRef, none⟩ =
      ⟨200, some (.dict [("entry", .list (ps.map (fun p =>
        Value.dict [("resource", Value.dict p)])))]), ""⟩)
    (hwf : ∀ p ∈ ps, matchesType p s.resource_type = true →
      ∀ kv ∈ p, kv.1 ≠ "root_attrs" ∧ kv.1 ≠ "_data" ∧
        (kv.1 = "resource_type" → kv.2 = Value.str s.resource_type)) :
    executeSS u srv σ a s =
      .ok ((ps.filter (fun p => matchesType p s.resource_type)).map
        (specTrustedResource sch), a,
        [⟨"get", s.resource_type, readRef σ s.paramsRef, none⟩]) := by
  have hb : do_request srv "get" s.resource_type none
      (readRef σ s.paramsRef) =
      (Except.ok (some (.dict [("entry", .list (ps.map (fun p =>
        Value.dict [("resource", Value.dict p)])))])),
       [⟨"get", s.resource_type, readRef σ s.paramsRef, none⟩]) := by
    simp [do_request, hsrv]
  have hba := buildAll_trusted u srv a sch s.resource_type hs hid
    (ps.filter (fun p => matchesType p s.resource_type))
    (fun q hq => ⟨matchesType_eq q s.resource_type
        (List.mem_filter.mp hq).2,
      hwf q (List.mem_filter.mp hq).1 (List.mem_filter.mp hq).2⟩)
  simp only [executeSS, hb]
  rw [show alGet [("entry", Value.list (ps.map (fun p =>
      Value.dict [("resource", Value.dict p)])))] "entry" =
    some (Value.list (ps.map (fun p =>
      Value.dict [("resource", Value.dict p)]))) from rfl]
  simp only [entryResources_records, recordDicts_dicts, hba]
  simp

/-- Witness for C8: a `Patient` search answered with three records —
a matching one carrying an extra non-schema field (`weird`, silently
dropped by trusted construction), an `Observation` (mismatched type,
excluded) and a record with no `resource_type` (excluded). -/
theorem execute_trusted_spec_witness :
    executeSS id
      (fun _ => ⟨200, some (.dict [("entry", .list (
        ([[("resource_type", Value.str "Patient"), ("id", Value.str "1"),
           ("name", Value.str "john"), ("weird", Value.int 5)],
          [("resource_type", Value.str "Observation"),
           ("id", Value.str "2")],
          [("id", Value.str "3")]]).map (fun p =>
          Value.dict [("resource", Value.dict p)])))]), ""⟩)
      ⟨[[]]⟩ ⟨"h", [("Patient", (insert "name" {"id"} : Finset String))]⟩
      ⟨"Patient", 0⟩ =
      .ok ((([[("resource_type", Value.str "Patient"),
           ("id", Value.str "1"), ("name", Value.str "john"),
           ("weird", Value.int 5)],
          [("resource_type", Value.str "Observation"),
           ("id", Value.str "2")],
          [("id", Value.str "3")]]).filter (fun p =>
          matchesType p "Patient")).map
        (specTrustedResource (insert "name" {"id"})),
        ⟨"h", [("Patient", (insert "name" {"id"} : Finset String))]⟩,
        [⟨"get", "Patient", [], none⟩]) :=
  execute_trusted_spec id
    (fun _ => ⟨200, some (.dict [("entry", .list (
      ([[("resource_type", Value.str "Patient"), ("id", Value.str "1"),
         ("name", Value.str "john"), ("weird", Value.int 5)],
        [("resource_type", Value.str "Observation"),
         ("id", Value.str "2")],
        [("id", Value.str "3")]]).map (fun p =>
        Value.dict [("resource", Value.dict p)])))]), ""⟩)
    ⟨[[]]⟩ ⟨"h", [("Patient", (insert "name" {"id"} : Finset String))]⟩
    ⟨"Patient", 0⟩ (insert "name" {"id"})
    [[("resource_type", Value.str "Patient"), ("id", Value.str "1"),
      ("name", Value.str "john"), ("weird", Value.int 5)],
     [("resource_type", Value.str "Observation"),
      ("id", Value.str "2")],
     [("id", Value.str "3")]]
    rfl (by decide) rfl (by decide)
